import Mathlib

/-!
The gomcp Linear example driver, `scripts/gomcp-linear-example/main.go`.

A shallow embedding of `main`: the process environment and the external
client library are inputs (`World`), and a run of `main` is the sequence
of observable events it produces together with its exit status.

Go semantics used by the embedding:
* `os.Getenv` returns the empty string for an unset variable;
* `log.Fatalf` logs the message and calls `os.Exit(1)`; `os.Exit` ends the
  process at once and deferred calls are not run;
* a deferred call runs when the surrounding function returns;
* a normal return from `main` ends the process with status `0`;
* the verb `%v` prints an error through its `Error()` text.
-/

namespace GomcpLinearExample

/-! ## Data model -/

/-- A Go `error` value, observed through its `Error()` text. -/
structure GoError where
  Error : String

/-- A tool definition returned by discovery: the two fields `main` reads. -/
structure Tool where
  Name : String
  Description : String

/-- The type `client.ServerDefinition`: how one server process is launched. Go maps are
association lists. -/
structure ServerDefinition where
  Command : String
  Args : List String
  Env : List (String × String)

/-- The type `client.ServerConfig`: the servers by name. -/
structure ServerConfig where
  MCPServers : List (String × ServerDefinition)

/-- The option value `client.WithServers(cfg, name)` handed to `client.NewClient`. -/
inductive ClientOption where
  | WithServers (cfg : ServerConfig) (name : String)

/-- Dynamically typed Go values (`any`), the fragment without floating point. -/
inductive GoValue where
  | nil
  | bool (b : Bool)
  | int (i : Int)
  | str (s : String)
  | slice (xs : List GoValue)
  | map (kvs : List (String × GoValue))

/-- Insert a rendered map entry by key order (`fmt` prints maps sorted by key). -/
def insertByKey (p : String × String) : List (String × String) → List (String × String)
  | [] => [p]
  | q :: qs => if p.1 < q.1 then p :: q :: qs else q :: insertByKey p qs

/-- Sort rendered map entries by key. -/
def sortByKey : List (String × String) → List (String × String)
  | [] => []
  | p :: ps => insertByKey p (sortByKey ps)

mutual
/-- The rendering of a value under the verb `%v`. -/
def GoValue.fmtV : GoValue → String
  | .nil => "<nil>"
  | .bool b => if b then "true" else "false"
  | .int i => toString i
  | .str s => s
  | .slice xs => "[" ++ " ".intercalate (GoValue.fmtVs xs) ++ "]"
  | .map kvs =>
      "map[" ++ " ".intercalate ((sortByKey (GoValue.fmtKVs kvs)).map (fun p => p.1 ++ ":" ++ p.2)) ++ "]"
/-- Renderings of the elements of a slice. -/
def GoValue.fmtVs : List GoValue → List String
  | [] => []
  | x :: xs => GoValue.fmtV x :: GoValue.fmtVs xs
/-- Renderings of the entries of a map, each with its key. -/
def GoValue.fmtKVs : List (String × GoValue) → List (String × String)
  | [] => []
  | (k, v) :: kvs => (k, GoValue.fmtV v) :: GoValue.fmtKVs kvs
end

/-- The client handle returned by `client.NewClient`, given by what its methods
return. -/
structure Client where
  ListTools : Except GoError (List Tool)
  CallTool : String → List (String × GoValue) → Except GoError GoValue

/-- Everything outside the program: the process environment (`none` is an unset
variable) and the client library's constructor. -/
structure World where
  env : String → Option String
  NewClient : String → ClientOption → Except GoError Client

/-- The function `os.Getenv`: the value of the variable, or the empty string when unset. -/
def World.Getenv (w : World) (key : String) : String :=
  (w.env key).getD ""

/-- What a run of the program does that can be observed from outside. -/
inductive Event where
  | log (msg : String)
  | stdout (text : String)
  | newClient (name : String) (opt : ClientOption)
  | listTools
  | callTool (name : String) (args : List (String × GoValue))
  | close

/-- A finished run: the events in order, then the exit status. -/
structure Run where
  trace : List Event
  exitCode : Nat

/-- The call `log.Fatalf` after the events `t`: log the message, then `os.Exit(1)`. The
deferred calls are not run. -/
def logFatalf (t : List Event) (msg : String) : Run :=
  ⟨t ++ [Event.log msg], 1⟩

/-- Return from `main` after the events `t`: the deferred calls run (`deferred`
is the defer stack, last deferred first) and the process ends with status 0. -/
def returnFromMain (t : List Event) (deferred : List Event) : Run :=
  ⟨t ++ deferred, 0⟩

/-- The message of the token warning (line 15). -/
def tokenWarning : String :=
  "WARN: LINEAR_API_TOKEN ist leer – setze es per Env oder Keychain-Wrapper."

/-- The server configuration built on lines 18-28. -/
def cfg : ServerConfig :=
  { MCPServers :=
      [("linear",
        { Command := "npx"
          Args := ["-y", "@tacticlaunch/mcp-linear"]
          Env := [("LINEAR_API_TOKEN", "$\x7bLINEAR_API_TOKEN\x7d")] })] }

/-- The token check of lines 13-16, on the value `os.Getenv` returned. -/
def tokenCheck (token : String) : List Event :=
  if token = "" then [Event.log tokenWarning] else []

/-- The events of the discovery step (lines 40-48), after the `ListTools` call
returned `r`. -/
def discovery (r : Except GoError (List Tool)) : List Event :=
  match r with
  | .error err => [Event.log ("WARN: Konnte Tools nicht auflisten: " ++ err.Error)]
  | .ok tools =>
      Event.stdout "Verfügbare Tools:\n" ::
        tools.map (fun t => Event.stdout ("- " ++ t.Name ++ ": " ++ t.Description ++ "\n"))

/-- The program `main` (lines 11-57). -/
def main (w : World) : Run :=
  let token := w.Getenv "LINEAR_API_TOKEN"
  let t1 := tokenCheck token
  let opt := ClientOption.WithServers cfg "linear"
  let t2 := t1 ++ [Event.newClient "gomcp-linear-example" opt]
  match w.NewClient "gomcp-linear-example" opt with
  | .error err => logFatalf t2 ("Client-Erstellung fehlgeschlagen: " ++ err.Error)
  | .ok c =>
      let deferred := [Event.close]
      let t3 := t2 ++ [Event.listTools] ++ discovery c.ListTools
      let args := [("team", GoValue.str "Frontend")]
      let t4 := t3 ++ [Event.callTool "list_issues" args]
      match c.CallTool "list_issues" args with
      | .error err => logFatalf t4 ("Tool-Aufruf fehlgeschlagen: " ++ err.Error)
      | .ok res => returnFromMain (t4 ++ [Event.stdout ("Result: " ++ res.fmtV ++ "\n")]) deferred

/-! ## Observations on a run -/

/-- The standard-output writes among the events, in order. -/
def stdoutWrites : List Event → List String
  | [] => []
  | Event.stdout s :: es => s :: stdoutWrites es
  | _ :: es => stdoutWrites es

/-- The text on standard output: the writes, concatenated. -/
def stdoutOf (t : List Event) : String :=
  String.join (stdoutWrites t)

/-- The messages handed to the logger, in order. -/
def logsOf : List Event → List String
  | [] => []
  | Event.log m :: es => m :: logsOf es
  | _ :: es => logsOf es

/-- The event is a call of `ListTools` or of `CallTool`. -/
def Event.isRequest : Event → Bool
  | Event.listTools => true
  | Event.callTool _ _ => true
  | _ => false

/-- The event is a call into the client library: the constructor or a method of
the handle. -/
def Event.isCollaboratorCall : Event → Bool
  | Event.newClient _ _ => true
  | Event.listTools => true
  | Event.callTool _ _ => true
  | Event.close => true
  | _ => false

/-- The event is a call of `Close`. -/
def Event.isClose : Event → Bool
  | Event.close => true
  | _ => false

/-- The event is a call of `client.NewClient`. -/
def Event.isNewClient : Event → Bool
  | Event.newClient _ _ => true
  | _ => false

/-- The event is the token warning being logged. -/
def Event.isTokenWarning : Event → Bool
  | Event.log m => m == tokenWarning
  | _ => false

/-- Split a text at line breaks. -/
def splitLines : List Char → List (List Char)
  | [] => [[]]
  | c :: cs =>
      if c = '\n' then [] :: splitLines cs
      else
        match splitLines cs with
        | [] => [[c]]
        | l :: ls => (c :: l) :: ls

/-- The lines of the text on standard output. -/
def stdoutLines (t : List Event) : List (List Char) :=
  splitLines (stdoutOf t).data

/-- The line begins with `Result:`. -/
def isResultLine (l : List Char) : Prop :=
  "Result:".data <+: l

instance (l : List Char) : Decidable (isResultLine l) := by
  unfold isResultLine; infer_instance

/-- The call of the constructor that `main` makes. -/
def newClientCall : Event :=
  Event.newClient "gomcp-linear-example" (ClientOption.WithServers cfg "linear")

/-- The call of `CallTool` that `main` makes. -/
def callToolCall : Event :=
  Event.callTool "list_issues" [("team", GoValue.str "Frontend")]

/-- The event is a call of `CallTool`. -/
def Event.isCallTool : Event → Bool
  | Event.callTool _ _ => true
  | _ => false

/-- The events before the first call of `CallTool`. -/
def beforeCallTool (t : List Event) : List Event :=
  t.takeWhile (fun e => !e.isCallTool)

/-! ## Concrete worlds -/

/-- A world given by the token variable and the outcome of each library call. -/
def mkWorld (token : Option String) (newClient : Except GoError Unit)
    (listTools : Except GoError (List Tool)) (callTool : Except GoError GoValue) : World :=
  { env := fun k => if k = "LINEAR_API_TOKEN" then token else none
    NewClient := fun _ _ =>
      match newClient with
      | .error e => .error e
      | .ok _ => .ok { ListTools := listTools, CallTool := fun _ _ => callTool } }

/-- The scenario of the end-to-end test. -/
def wEndToEnd : World :=
  mkWorld (some "abc") (.ok ()) (.ok [⟨"list_issues", "List issues"⟩])
    (.ok (GoValue.map [("count", GoValue.int 2)]))

/-- A world in which construction and discovery succeed and the invocation fails. -/
def wInvocationFails : World :=
  mkWorld (some "abc") (.ok ()) (.ok []) (.error ⟨"boom"⟩)

/-- A world whose one tool has a description of two lines. -/
def wTwoLineDescription : World :=
  mkWorld (some "abc") (.ok ()) (.ok [⟨"x", "y\nResult: z"⟩]) (.error ⟨"boom"⟩)

/-- A world with two tools of one line each, in which the invocation fails. -/
def wTwoTools : World :=
  mkWorld none (.ok ())
    (.ok [⟨"list_issues", "List issues"⟩, ⟨"Result", "Result: of a search"⟩]) (.error ⟨"boom"⟩)

/-- The collaborator of the end-to-end scenario, with the token variable unset. -/
def wEndToEndNoToken : World :=
  mkWorld none (.ok ()) (.ok [⟨"list_issues", "List issues"⟩])
    (.ok (GoValue.map [("count", GoValue.int 2)]))

/-- A world in which the constructor fails. -/
def wConstructionFails : World :=
  mkWorld none (.error ⟨"spawn failed"⟩) (.ok []) (.ok GoValue.nil)

/-- A world in which discovery fails and the invocation succeeds. -/
def wDiscoveryFails : World :=
  mkWorld (some "abc") (.ok ()) (.error ⟨"no tools"⟩) (.ok GoValue.nil)

/-- The collaborator of the end-to-end scenario, with another token. -/
def wEndToEndOtherToken : World :=
  mkWorld (some "xyz") (.ok ()) (.ok [⟨"list_issues", "List issues"⟩])
    (.ok (GoValue.map [("count", GoValue.int 2)]))

/-- A world whose one tool has a description of two lines, neither beginning
with `Result:`, and in which the invocation fails. -/
def wHarmlessTwoLines : World :=
  mkWorld (some "abc") (.ok ()) (.ok [⟨"search", "first line\nsecond line"⟩]) (.error ⟨"boom"⟩)

/-! ## Unfolding `main` along its three paths -/

/-- The run when the constructor fails. -/
theorem main_newClient_error (w : World) (err : GoError)
    (h : w.NewClient "gomcp-linear-example" (ClientOption.WithServers cfg "linear") = .error err) :
    main w = ⟨tokenCheck (w.Getenv "LINEAR_API_TOKEN") ++
      [newClientCall, Event.log ("Client-Erstellung fehlgeschlagen: " ++ err.Error)], 1⟩ := by
  simp [main, h, logFatalf, newClientCall]

/-- The run when the constructor succeeds and the invocation fails. -/
theorem main_callTool_error (w : World) (c : Client) (err : GoError)
    (h : w.NewClient "gomcp-linear-example" (ClientOption.WithServers cfg "linear") = .ok c)
    (hc : c.CallTool "list_issues" [("team", GoValue.str "Frontend")] = .error err) :
    main w = ⟨tokenCheck (w.Getenv "LINEAR_API_TOKEN") ++
      (newClientCall :: Event.listTools :: discovery c.ListTools ++
        [callToolCall, Event.log ("Tool-Aufruf fehlgeschlagen: " ++ err.Error)]), 1⟩ := by
  simp [main, h, hc, logFatalf, newClientCall, callToolCall]

/-- The run when the constructor and the invocation succeed. -/
theorem main_callTool_ok (w : World) (c : Client) (res : GoValue)
    (h : w.NewClient "gomcp-linear-example" (ClientOption.WithServers cfg "linear") = .ok c)
    (hc : c.CallTool "list_issues" [("team", GoValue.str "Frontend")] = .ok res) :
    main w = ⟨tokenCheck (w.Getenv "LINEAR_API_TOKEN") ++
      (newClientCall :: Event.listTools :: discovery c.ListTools ++
        [callToolCall, Event.stdout ("Result: " ++ res.fmtV ++ "\n"), Event.close]), 0⟩ := by
  simp [main, h, hc, returnFromMain, newClientCall, callToolCall]

/-! ## Observations distribute over the sequence of events -/

/-- The writes of two event sequences in a row. -/
theorem stdoutWrites_append (a b : List Event) :
    stdoutWrites (a ++ b) = stdoutWrites a ++ stdoutWrites b := by
  induction a with
  | nil => rfl
  | cons e es ih => cases e <;> simp [stdoutWrites, ih]

/-- The token check writes nothing to standard output. -/
theorem stdoutWrites_tokenCheck (token : String) : stdoutWrites (tokenCheck token) = [] := by
  unfold tokenCheck; split <;> rfl

/-- The writes of the tool entries are the entries. -/
theorem stdoutWrites_entries (tools : List Tool) :
    stdoutWrites (tools.map (fun t => Event.stdout ("- " ++ t.Name ++ ": " ++ t.Description ++ "\n")))
      = tools.map (fun t => "- " ++ t.Name ++ ": " ++ t.Description ++ "\n") := by
  induction tools with
  | nil => rfl
  | cons t ts ih => simp [stdoutWrites, ih]

/-- The token check calls no method of the handle. -/
theorem filter_isRequest_tokenCheck (token : String) :
    (tokenCheck token).filter Event.isRequest = [] := by
  unfold tokenCheck; split <;> rfl

/-- Printing the discovery outcome calls no method of the handle. -/
theorem filter_isRequest_discovery (r : Except GoError (List Tool)) :
    (discovery r).filter Event.isRequest = [] := by
  cases r with
  | error e => rfl
  | ok tools =>
      simp only [discovery, List.filter_cons, Event.isRequest]
      simp
      intro a _
      rfl

/-- The token check makes no call into the client library. -/
theorem filter_collaboratorCall_tokenCheck (token : String) :
    (tokenCheck token).filter Event.isCollaboratorCall = [] := by
  unfold tokenCheck; split <;> rfl

/-- The token check logs nothing but the token warning. -/
theorem filter_not_tokenWarning_tokenCheck (token : String) :
    (tokenCheck token).filter (fun e => !e.isTokenWarning) = [] := by
  unfold tokenCheck; split
  · simp [Event.isTokenWarning]
  · rfl

/-- The token check does not call `Close`. -/
theorem countP_isClose_tokenCheck (token : String) :
    (tokenCheck token).countP Event.isClose = 0 := by
  unfold tokenCheck; split <;> rfl

/-- Printing the discovery outcome does not call `Close`. -/
theorem countP_isClose_discovery (r : Except GoError (List Tool)) :
    (discovery r).countP Event.isClose = 0 := by
  cases r with
  | error e => rfl
  | ok tools =>
      rw [List.countP_eq_zero]
      intro e he
      simp [discovery] at he
      rcases he with he | ⟨t, _, he⟩ <;> subst he <;> simp [Event.isClose]

/-- The token check does not call `CallTool`. -/
theorem not_isCallTool_tokenCheck (token : String) :
    ∀ e ∈ tokenCheck token, (!e.isCallTool) = true := by
  intro e he
  unfold tokenCheck at he
  split at he <;> simp_all [Event.isCallTool]

/-- Printing the discovery outcome does not call `CallTool`. -/
theorem not_isCallTool_discovery (r : Except GoError (List Tool)) :
    ∀ e ∈ discovery r, (!e.isCallTool) = true := by
  intro e he
  cases r with
  | error x => simp [discovery] at he; subst he; rfl
  | ok tools =>
      simp [discovery] at he
      rcases he with he | ⟨t, _, he⟩ <;> subst he <;> rfl

/-- The token check depends only on whether the token is empty. -/
theorem tokenCheck_congr (a b : String) (h : a = "" ↔ b = "") : tokenCheck a = tokenCheck b := by
  unfold tokenCheck
  by_cases ha : a = ""
  · simp [ha, h.mp ha]
  · have hb : ¬ b = "" := fun hb => ha (h.mpr hb)
    simp [ha, hb]

/-- The function `os.Getenv` returns the empty string exactly for an unset or empty variable. -/
theorem getenv_eq_empty_iff (w : World) (key : String) :
    w.Getenv key = "" ↔ (w.env key = none ∨ w.env key = some "") := by
  unfold World.Getenv
  cases w.env key <;> simp

/-- The construction failure message is never the token warning. -/
theorem fatal_construction_ne_tokenWarning (s : String) :
    "Client-Erstellung fehlgeschlagen: " ++ s ≠ tokenWarning := by
  intro h
  have := congrArg String.data h
  simp [String.data_append, tokenWarning] at this

/-- The discovery warning is never the token warning. -/
theorem warn_discovery_ne_tokenWarning (s : String) :
    "WARN: Konnte Tools nicht auflisten: " ++ s ≠ tokenWarning := by
  intro h
  have := congrArg String.data h
  simp [String.data_append, tokenWarning] at this

/-- The invocation failure message is never the token warning. -/
theorem fatal_invocation_ne_tokenWarning (s : String) :
    "Tool-Aufruf fehlgeschlagen: " ++ s ≠ tokenWarning := by
  intro h
  have := congrArg String.data h
  simp [String.data_append, tokenWarning] at this

/-- Printing the discovery outcome never logs the token warning. -/
theorem tokenWarning_not_mem_discovery (r : Except GoError (List Tool)) :
    Event.log tokenWarning ∉ discovery r := by
  cases r with
  | error e =>
      simp only [discovery, List.mem_singleton, Event.log.injEq]
      exact fun h => warn_discovery_ne_tokenWarning _ h.symm
  | ok tools => simp [discovery]

/-- The token check logs the warning exactly for the empty token. -/
theorem tokenWarning_mem_tokenCheck (token : String) :
    Event.log tokenWarning ∈ tokenCheck token ↔ token = "" := by
  unfold tokenCheck; split <;> simp [*]

/-- Taking while `p` holds stops at the first element where it fails. -/
theorem takeWhile_append_stop {α : Type} (p : α → Bool) (l : List α) (a : α) (r : List α)
    (hl : ∀ x ∈ l, p x = true) (ha : p a = false) : (l ++ a :: r).takeWhile p = l := by
  induction l with
  | nil => simp [List.takeWhile, ha]
  | cons x xs ih =>
      have hx : p x = true := hl x (by simp)
      simp [List.takeWhile_cons, hx, ih (fun y hy => hl y (by simp [hy]))]

/-- The events of a run before its call of `CallTool`. -/
theorem beforeCallTool_main (w : World) (c : Client)
    (h : w.NewClient "gomcp-linear-example" (ClientOption.WithServers cfg "linear") = .ok c) :
    beforeCallTool (main w).trace =
      tokenCheck (w.Getenv "LINEAR_API_TOKEN") ++
        (newClientCall :: Event.listTools :: discovery c.ListTools) := by
  have hstop : ∀ r : List Event,
      beforeCallTool (tokenCheck (w.Getenv "LINEAR_API_TOKEN") ++
        (newClientCall :: Event.listTools :: discovery c.ListTools ++ callToolCall :: r)) =
      tokenCheck (w.Getenv "LINEAR_API_TOKEN") ++
        (newClientCall :: Event.listTools :: discovery c.ListTools) := by
    intro r
    have := takeWhile_append_stop (fun e : Event => !e.isCallTool)
      (tokenCheck (w.Getenv "LINEAR_API_TOKEN") ++
        (newClientCall :: Event.listTools :: discovery c.ListTools)) callToolCall r
      (by
        intro x hx
        simp only [List.mem_append, List.mem_cons] at hx
        rcases hx with hx | hx | hx | hx
        · exact not_isCallTool_tokenCheck _ x hx
        · subst hx; rfl
        · subst hx; rfl
        · exact not_isCallTool_discovery _ x hx)
      rfl
    simpa [beforeCallTool] using this
  cases hc : c.CallTool "list_issues" [("team", GoValue.str "Frontend")] with
  | error err => rw [main_callTool_error w c err h hc]; exact hstop _
  | ok res => rw [main_callTool_ok w c res h hc]; exact hstop _

/-- When the invocation fails, the only writes are those of the discovery step. -/
theorem stdoutWrites_main_callTool_error (w : World) (c : Client) (err : GoError)
    (h : w.NewClient "gomcp-linear-example" (ClientOption.WithServers cfg "linear") = .ok c)
    (hc : c.CallTool "list_issues" [("team", GoValue.str "Frontend")] = .error err) :
    stdoutWrites (main w).trace = stdoutWrites (discovery c.ListTools) := by
  rw [main_callTool_error w c err h hc]
  simp [stdoutWrites_append, stdoutWrites_tokenCheck, stdoutWrites, newClientCall, callToolCall]

/-- Every run is the token check followed by events and an exit status that the
collaborator alone determines. -/
theorem main_eq_tokenCheck_append (w : World) :
    ∃ rest : List Event, ∃ code : Nat,
      main w = ⟨tokenCheck (w.Getenv "LINEAR_API_TOKEN") ++ rest, code⟩ ∧
      ∀ w2 : World, w2.NewClient = w.NewClient →
        main w2 = ⟨tokenCheck (w2.Getenv "LINEAR_API_TOKEN") ++ rest, code⟩ := by
  cases h : w.NewClient "gomcp-linear-example" (ClientOption.WithServers cfg "linear") with
  | error err =>
      refine ⟨_, _, main_newClient_error w err h, ?_⟩
      intro w2 h2
      exact main_newClient_error w2 err (by rw [h2]; exact h)
  | ok c =>
      cases hc : c.CallTool "list_issues" [("team", GoValue.str "Frontend")] with
      | error err =>
          refine ⟨_, _, main_callTool_error w c err h hc, ?_⟩
          intro w2 h2
          exact main_callTool_error w2 c err (by rw [h2]; exact h) hc
      | ok res =>
          refine ⟨_, _, main_callTool_ok w c res h hc, ?_⟩
          intro w2 h2
          exact main_callTool_ok w2 c res (by rw [h2]; exact h) hc

/-- The first line of a text that starts with a line and its line break. -/
theorem splitLines_terminated (a rest : List Char) (ha : '\n' ∉ a) :
    splitLines (a ++ '\n' :: rest) = a :: splitLines rest := by
  induction a with
  | nil => simp [splitLines]
  | cons c cs ih =>
      have hc : c ≠ '\n' := fun hEq => ha (by simp [hEq])
      have hcs : '\n' ∉ cs := fun hIn => ha (by simp [hIn])
      simp [splitLines, hc, ih hcs]

/-- The lines of a text made of lines, each followed by a line break. -/
theorem splitLines_flatten (ls : List (List Char)) (h : ∀ l ∈ ls, '\n' ∉ l) :
    splitLines ((ls.map (fun l => l ++ ['\n'])).flatten) = ls ++ [[]] := by
  induction ls with
  | nil => simp [splitLines]
  | cons l ls ih =>
      have hl : '\n' ∉ l := h l (by simp)
      have hls : ∀ x ∈ ls, '\n' ∉ x := fun x hx => h x (by simp [hx])
      simp only [List.map_cons, List.flatten_cons, List.append_assoc, List.singleton_append,
        List.cons_append]
      rw [splitLines_terminated l _ hl, List.nil_append, ih hls]

/-- On a normal return the deferred `Close` runs once, as the last event. -/
theorem close_once_on_return (w : World) (c : Client) (res : GoValue)
    (h : w.NewClient "gomcp-linear-example" (ClientOption.WithServers cfg "linear") = .ok c)
    (hc : c.CallTool "list_issues" [("team", GoValue.str "Frontend")] = .ok res) :
    ∃ pre, (main w).trace = pre ++ [Event.close] ∧ pre.countP Event.isClose = 0 := by
  rw [main_callTool_ok w c res h hc]
  refine ⟨tokenCheck (w.Getenv "LINEAR_API_TOKEN") ++
    (newClientCall :: Event.listTools :: discovery c.ListTools ++
      [callToolCall, Event.stdout ("Result: " ++ res.fmtV ++ "\n")]), by simp, ?_⟩
  simp [List.countP_append, List.countP_cons, countP_isClose_tokenCheck,
    countP_isClose_discovery, Event.isClose, newClientCall, callToolCall]

/-- When the invocation fails, `log.Fatalf` ends the process and the deferred
`Close` never runs. -/
theorem close_skipped_on_fatal (w : World) (c : Client) (err : GoError)
    (h : w.NewClient "gomcp-linear-example" (ClientOption.WithServers cfg "linear") = .ok c)
    (hc : c.CallTool "list_issues" [("team", GoValue.str "Frontend")] = .error err) :
    (main w).trace.countP Event.isClose = 0 ∧ (main w).exitCode = 1 := by
  rw [main_callTool_error w c err h hc]
  constructor
  · simp [List.countP_append, List.countP_cons, countP_isClose_tokenCheck,
      countP_isClose_discovery, Event.isClose, newClientCall, callToolCall]
  · rfl

/-- A text always has at least one line. -/
theorem splitLines_ne_nil (s : List Char) : splitLines s ≠ [] := by
  cases s with
  | nil => simp [splitLines]
  | cons c cs =>
      by_cases hc : c = '\n'
      · simp [splitLines, hc]
      · simp only [splitLines, hc, if_false]
        split <;> simp

/-- The lines of two texts joined by a line break. -/
theorem splitLines_append_lineBreak (a rest : List Char) :
    splitLines (a ++ '\n' :: rest) = splitLines a ++ splitLines rest := by
  induction a with
  | nil => simp [splitLines]
  | cons c cs ih =>
      by_cases hc : c = '\n'
      · simp [splitLines, hc, ih]
      · have hne := splitLines_ne_nil cs
        simp only [List.cons_append, splitLines, hc, if_false]
        cases hs : splitLines cs with
        | nil => exact absurd hs hne
        | cons l ls =>
            rw [show cs.append ('\n' :: rest) = cs ++ '\n' :: rest from rfl, ih, hs]
            simp

/-- The lines of a text made of pieces, each followed by a line break. -/
theorem splitLines_pieces (ls : List (List Char)) :
    splitLines ((ls.map (fun l => l ++ ['\n'])).flatten) = (ls.map splitLines).flatten ++ [[]] := by
  induction ls with
  | nil => simp [splitLines]
  | cons l ls ih =>
      simp only [List.map_cons, List.flatten_cons, List.append_assoc, List.singleton_append]
      rw [splitLines_append_lineBreak, ih]

/-- No line contains a line break. -/
theorem splitLines_no_lineBreak (s : List Char) : ∀ l ∈ splitLines s, '\n' ∉ l := by
  induction s with
  | nil => simp [splitLines]
  | cons c cs ih =>
      by_cases hc : c = '\n'
      · simp only [splitLines, hc, if_true, List.mem_cons]
        rintro l (hl | hl)
        · subst hl; simp
        · exact ih l hl
      · simp only [splitLines, hc, if_false]
        cases hs : splitLines cs with
        | nil => simp [Ne.symm hc]
        | cons x xs =>
            rw [hs] at ih
            simp only [List.mem_cons]
            rintro l (hl | hl)
            · subst hl
              have := ih x (by simp)
              simp [Ne.symm hc, this]
            · exact ih l (by simp [hl])

/-- The characters of lines written one after the other, each with its line
break. -/
theorem data_join_lines (ss : List String) :
    (String.join (ss.map (fun line => line ++ "\n"))).data =
      ((ss.map String.data).map (fun l => l ++ ['\n'])).flatten := by
  have hN : "\n".data = ['\n'] := rfl
  simp [String.data_join, List.map_map, Function.comp_def, String.data_append, hN]

/-- The writes of a successful discovery step: the header and the entries, each
with its line break. -/
theorem stdoutWrites_discovery_ok (tools : List Tool) :
    stdoutWrites (discovery (.ok tools)) =
      ("Verfügbare Tools:" :: tools.map (fun t => "- " ++ t.Name ++ ": " ++ t.Description)).map
        (fun line => line ++ "\n") := by
  simp [discovery, stdoutWrites, stdoutWrites_entries, List.map_map, Function.comp_def]

/-- The header is one line. -/
theorem splitLines_header :
    splitLines "Verfügbare Tools:".data = ["Verfügbare Tools:".data] := by decide

/-- A tool entry has a line break only where its name or description has one. -/
theorem entry_lineBreak_iff (t : Tool) :
    '\n' ∉ ("- " ++ t.Name ++ ": " ++ t.Description).data ↔
      ('\n' ∉ t.Name.data ∧ '\n' ∉ t.Description.data) := by
  have hD : "- ".data = ['-', ' '] := rfl
  have hC : ": ".data = [':', ' '] := rfl
  simp [String.data_append, hD, hC]

/-! ## The claims -/

/-- Claim C1, evaluated where it fails: in a run whose constructor succeeds and
whose `CallTool` returns an error, `log.Fatalf` ends the process with status 1
and the deferred `Close` is never called (the claim says it is called exactly
once on this path too). -/
theorem close_skipped_on_invocation_failure :
    (∃ c err, wInvocationFails.NewClient "gomcp-linear-example"
        (ClientOption.WithServers cfg "linear") = .ok c ∧
      c.CallTool "list_issues" [("team", GoValue.str "Frontend")] = .error err) ∧
    (main wInvocationFails).trace.countP Event.isClose = 0 ∧
    (main wInvocationFails).exitCode = 1 :=
  ⟨⟨_, _, rfl, rfl⟩, by decide, by decide⟩

/-- Claim C2: when `client.NewClient` returns an error, whatever the environment
and the error, `main` exits with a non-zero status, calls neither `ListTools`
nor `CallTool`, and writes nothing to standard output (so neither the tool
header nor a `Result:` line). -/
theorem construction_failure_is_fatal (w : World) (err : GoError)
    (h : w.NewClient "gomcp-linear-example" (ClientOption.WithServers cfg "linear") = .error err) :
    (main w).exitCode ≠ 0 ∧
    Event.listTools ∉ (main w).trace ∧
    (∀ name args, Event.callTool name args ∉ (main w).trace) ∧
    stdoutOf (main w).trace = "" := by
  rw [main_newClient_error w err h]
  refine ⟨by simp, ?_, ?_, ?_⟩
  · simp [tokenCheck, newClientCall]
  · intro name args; simp [tokenCheck, newClientCall]
  · simp [stdoutOf, stdoutWrites_append, stdoutWrites_tokenCheck, stdoutWrites, newClientCall,
      String.join]

/-- Claim C2 at a world whose constructor fails. -/
theorem construction_failure_is_fatal_witness :
    (main wConstructionFails).exitCode ≠ 0 ∧
    Event.listTools ∉ (main wConstructionFails).trace ∧
    (∀ name args, Event.callTool name args ∉ (main wConstructionFails).trace) ∧
    stdoutOf (main wConstructionFails).trace = "" :=
  construction_failure_is_fatal wConstructionFails ⟨"spawn failed"⟩ rfl

/-- Claim C3: when the constructor succeeds, whatever `ListTools` returns, the
calls of methods of the handle that `main` makes are `ListTools` once and then
`CallTool` once, with the tool name `list_issues` and the one-entry argument map
`team = Frontend`. -/
theorem discovery_then_invocation (w : World) (c : Client)
    (h : w.NewClient "gomcp-linear-example" (ClientOption.WithServers cfg "linear") = .ok c) :
    (main w).trace.filter Event.isRequest =
      [Event.listTools, Event.callTool "list_issues" [("team", GoValue.str "Frontend")]] := by
  cases hc : c.CallTool "list_issues" [("team", GoValue.str "Frontend")] with
  | error err =>
      rw [main_callTool_error w c err h hc]
      simp [List.filter_append, filter_isRequest_tokenCheck, filter_isRequest_discovery,
        List.filter_cons, Event.isRequest, newClientCall, callToolCall]
  | ok res =>
      rw [main_callTool_ok w c res h hc]
      simp [List.filter_append, filter_isRequest_tokenCheck, filter_isRequest_discovery,
        List.filter_cons, Event.isRequest, newClientCall, callToolCall]

/-- Claim C3 at a world in which discovery fails. -/
theorem discovery_then_invocation_witness :
    (main wDiscoveryFails).trace.filter Event.isRequest =
      [Event.listTools, Event.callTool "list_issues" [("team", GoValue.str "Frontend")]] :=
  discovery_then_invocation wDiscoveryFails _ rfl

/-- Claim C4 as stated fails: with the constructor succeeding, `ListTools`
returning one tool whose description is `y`, a line break, `Result: z`, and
`CallTool` returning an error, standard output has a line beginning with
`Result:`. -/
theorem result_line_from_tool_description :
    (∃ c err, wTwoLineDescription.NewClient "gomcp-linear-example"
        (ClientOption.WithServers cfg "linear") = .ok c ∧
      c.CallTool "list_issues" [("team", GoValue.str "Frontend")] = .error err) ∧
    stdoutOf (main wTwoLineDescription).trace = "Verfügbare Tools:\n- x: y\nResult: z\n" ∧
    ∃ l ∈ stdoutLines (main wTwoLineDescription).trace, isResultLine l :=
  ⟨⟨_, _, rfl, rfl⟩, by decide, by decide⟩

/-- Claim C4, amended: when the constructor succeeds and `CallTool` returns an
error, `main` exits with a non-zero status and everything on standard output
was written before `CallTool` was called, whatever `ListTools` returned; and
standard output has no line beginning with `Result:` if and only if no line
of a printed tool entry, `- ` + name + `: ` + description, begins with
`Result:`. -/
theorem invocation_failure_prints_no_result (w : World) (c : Client) (err : GoError)
    (h : w.NewClient "gomcp-linear-example" (ClientOption.WithServers cfg "linear") = .ok c)
    (hc : c.CallTool "list_issues" [("team", GoValue.str "Frontend")] = .error err) :
    (main w).exitCode ≠ 0 ∧
    stdoutWrites (main w).trace = stdoutWrites (beforeCallTool (main w).trace) ∧
    ((∀ l ∈ stdoutLines (main w).trace, ¬ isResultLine l) ↔
      (∀ tools, c.ListTools = .ok tools → ∀ t ∈ tools,
        ∀ l ∈ splitLines ("- " ++ t.Name ++ ": " ++ t.Description).data, ¬ isResultLine l)) := by
  refine ⟨by rw [main_callTool_error w c err h hc]; simp, ?_, ?_⟩
  · rw [beforeCallTool_main w c h, stdoutWrites_main_callTool_error w c err h hc]
    simp [stdoutWrites_append, stdoutWrites_tokenCheck, stdoutWrites, newClientCall]
  rw [stdoutLines, stdoutOf, stdoutWrites_main_callTool_error w c err h hc]
  cases hlt : c.ListTools with
  | error e =>
      constructor
      · intro _ tools ht
        cases ht
      · intro _ l hl
        have hl2 : l = [] := by simpa [discovery, stdoutWrites, splitLines] using hl
        subst hl2
        decide
  | ok tools =>
      rw [stdoutWrites_discovery_ok, data_join_lines, splitLines_pieces]
      constructor
      · intro hall tools2 ht t htm l hl
        have hEq : tools2 = tools := by injection ht with ht; exact ht.symm
        subst hEq
        apply hall l
        simp only [List.map_cons, List.map_map, List.flatten_cons, List.mem_append,
          List.mem_flatten, List.mem_map, Function.comp_apply, List.mem_singleton]
        exact Or.inl (Or.inr ⟨_, ⟨t, htm, rfl⟩, hl⟩)
      · intro hall l hl
        rw [List.map_cons, List.map_cons, List.flatten_cons, splitLines_header] at hl
        simp only [List.map_map, List.mem_append, List.mem_flatten, List.mem_map,
          Function.comp_apply, List.mem_singleton] at hl
        rcases hl with (hl | ⟨ls, ⟨t, htm, hls⟩, hl⟩) | hl
        · subst hl; decide
        · subst hls; exact hall tools rfl t htm l hl
        · subst hl; decide

/-- Claim C4, amended, at a world whose one tool has a description of two lines,
neither beginning with `Result:`: the exit status is non-zero, nothing is
written after the call, and no line of standard output begins with `Result:`. -/
theorem invocation_failure_prints_no_result_witness :
    (main wHarmlessTwoLines).exitCode ≠ 0 ∧
    stdoutWrites (main wHarmlessTwoLines).trace =
      stdoutWrites (beforeCallTool (main wHarmlessTwoLines).trace) ∧
    ∀ l ∈ stdoutLines (main wHarmlessTwoLines).trace, ¬ isResultLine l :=
  have t := invocation_failure_prints_no_result wHarmlessTwoLines _ ⟨"boom"⟩ rfl rfl
  ⟨t.1, t.2.1, t.2.2.mpr (by
    intro tools ht t hmem
    have hEq : tools = [⟨"search", "first line\nsecond line"⟩] := by
      injection ht with ht; exact ht.symm
    subst hEq
    simp only [List.mem_singleton] at hmem
    subst hmem
    decide)⟩

/-- Claim C5: for every state of `LINEAR_API_TOKEN` (set, empty or unset) the run
of `main` contains the call of `client.NewClient`, preceded by nothing but the
token warning, and the token warning is logged if and only if the variable is
unset or empty. -/
theorem token_check_reaches_construction (w : World) :
    (∃ pre post, (main w).trace = pre ++
        Event.newClient "gomcp-linear-example" (ClientOption.WithServers cfg "linear") :: post ∧
        ∀ e ∈ pre, e = Event.log tokenWarning) ∧
    (Event.log "WARN: LINEAR_API_TOKEN ist leer – setze es per Env oder Keychain-Wrapper."
        ∈ (main w).trace ↔
      (w.env "LINEAR_API_TOKEN" = none ∨ w.env "LINEAR_API_TOKEN" = some "")) := by
  have hpre : ∀ e ∈ tokenCheck (w.Getenv "LINEAR_API_TOKEN"), e = Event.log tokenWarning := by
    intro e he
    unfold tokenCheck at he
    split at he <;> simp_all
  rw [← getenv_eq_empty_iff, ← tokenWarning_mem_tokenCheck]
  change _ ∧ (Event.log tokenWarning ∈ _ ↔ _)
  cases h : w.NewClient "gomcp-linear-example" (ClientOption.WithServers cfg "linear") with
  | error err =>
      rw [main_newClient_error w err h]
      refine ⟨⟨_, _, rfl, hpre⟩, ?_⟩
      have := fatal_construction_ne_tokenWarning err.Error
      simp [newClientCall, Ne.symm this]
  | ok c =>
      cases hc : c.CallTool "list_issues" [("team", GoValue.str "Frontend")] with
      | error err =>
          rw [main_callTool_error w c err h hc]
          refine ⟨⟨_, _, rfl, hpre⟩, ?_⟩
          have := fatal_invocation_ne_tokenWarning err.Error
          simp [newClientCall, callToolCall, Ne.symm this, tokenWarning_not_mem_discovery]
      | ok res =>
          rw [main_callTool_ok w c res h hc]
          refine ⟨⟨_, _, rfl, hpre⟩, ?_⟩
          simp [newClientCall, callToolCall, tokenWarning_not_mem_discovery]

/-- Claim C6: the exit status of `main` is 0 if and only if the constructor
succeeds and `CallTool` succeeds, whatever `ListTools` returned and whatever the
token; otherwise it is 1. -/
theorem exit_status (w : World) :
    ((main w).exitCode = 0 ↔
      ∃ c res, w.NewClient "gomcp-linear-example" (ClientOption.WithServers cfg "linear") = .ok c ∧
        c.CallTool "list_issues" [("team", GoValue.str "Frontend")] = .ok res) ∧
    ((main w).exitCode = 0 ∨ (main w).exitCode = 1) := by
  cases h : w.NewClient "gomcp-linear-example" (ClientOption.WithServers cfg "linear") with
  | error err =>
      rw [main_newClient_error w err h]
      simp
  | ok c =>
      cases hc : c.CallTool "list_issues" [("team", GoValue.str "Frontend")] with
      | error err =>
          rw [main_callTool_error w c err h hc]
          simp [hc]
      | ok res =>
          rw [main_callTool_ok w c res h hc]
          simp [hc]

/-- Claim C7 as stated fails: with `ListTools` returning the one tool `x` whose
description is `y`, a line break, `Result: z`, the tool section on standard
output is the header line followed by two lines, `- x: y` and `Result: z`,
not by the one line the claim gives for one tool. (The last, empty entry of
`stdoutLines` is what follows the final line break.) -/
theorem tool_section_lines_exceed_tools :
    (∃ c, wTwoLineDescription.NewClient "gomcp-linear-example"
        (ClientOption.WithServers cfg "linear") = .ok c ∧
      c.ListTools = .ok [⟨"x", "y\nResult: z"⟩]) ∧
    stdoutLines (beforeCallTool (main wTwoLineDescription).trace) =
      ["Verfügbare Tools:".data, "- x: y".data, "Result: z".data, []] ∧
    stdoutLines (beforeCallTool (main wTwoLineDescription).trace) ≠
      ("Verfügbare Tools:" ::
        [(⟨"x", "y\nResult: z"⟩ : Tool)].map
          (fun t => "- " ++ t.Name ++ ": " ++ t.Description)).map String.data ++ [[]] :=
  ⟨⟨_, rfl, rfl⟩, by decide, by decide⟩

/-- Claim C7, amended: when the constructor succeeds and `ListTools` returns the
tools `t1 .. tn`, what `main` writes to standard output before calling
`CallTool` is the header `Verfügbare Tools:` and then, for each tool in the
order returned, the text `- ` + name + `: ` + description, each followed by a
line break; the lines of that output are the header line followed by exactly
these `n` entries if and only if no tool name or description contains a line
break; for the empty list the output is the header line alone. -/
theorem tool_section (w : World) (c : Client) (tools : List Tool)
    (h : w.NewClient "gomcp-linear-example" (ClientOption.WithServers cfg "linear") = .ok c)
    (ht : c.ListTools = .ok tools) :
    stdoutWrites (beforeCallTool (main w).trace) =
      ("Verfügbare Tools:" :: tools.map (fun t => "- " ++ t.Name ++ ": " ++ t.Description)).map
        (fun line => line ++ "\n") ∧
    (stdoutLines (beforeCallTool (main w).trace) =
        ("Verfügbare Tools:" ::
          tools.map (fun t => "- " ++ t.Name ++ ": " ++ t.Description)).map String.data ++ [[]] ↔
      ∀ t ∈ tools, '\n' ∉ t.Name.data ∧ '\n' ∉ t.Description.data) ∧
    (tools = [] → stdoutOf (beforeCallTool (main w).trace) = "Verfügbare Tools:\n") := by
  have hw : stdoutWrites (beforeCallTool (main w).trace) =
      ("Verfügbare Tools:" :: tools.map (fun t => "- " ++ t.Name ++ ": " ++ t.Description)).map
        (fun line => line ++ "\n") := by
    have hd : stdoutWrites (beforeCallTool (main w).trace) =
        stdoutWrites (discovery (.ok tools)) := by
      rw [beforeCallTool_main w c h, ht]
      simp [stdoutWrites_append, stdoutWrites_tokenCheck, stdoutWrites, newClientCall]
    rw [hd, stdoutWrites_discovery_ok]
  refine ⟨hw, ?_, ?_⟩
  · rw [stdoutLines, stdoutOf, hw, data_join_lines]
    constructor
    · intro hEq t htm
      rw [← entry_lineBreak_iff]
      apply splitLines_no_lineBreak _ _
      rw [hEq]
      simp only [List.map_cons, List.map_map, List.mem_append, List.mem_cons, List.mem_map,
        Function.comp_apply]
      exact Or.inl (Or.inr ⟨t, htm, rfl⟩)
    · intro hall
      apply splitLines_flatten
      intro x hx
      simp only [List.map_cons, List.map_map, List.mem_cons, List.mem_map,
        Function.comp_apply] at hx
      rcases hx with hx | ⟨t, htm, hx⟩
      · subst hx; decide
      · subst hx
        exact (entry_lineBreak_iff t).mpr (hall t htm)
  · intro hnil
    subst hnil
    rw [stdoutOf, hw]
    rfl

/-- Claim C7, amended, at a world with two tools of one line each, and at a
world with no tool. -/
theorem tool_section_witness :
    stdoutWrites (beforeCallTool (main wTwoTools).trace) =
      ["Verfügbare Tools:\n", "- list_issues: List issues\n",
        "- Result: Result: of a search\n"] ∧
    stdoutLines (beforeCallTool (main wTwoTools).trace) =
      ["Verfügbare Tools:".data, "- list_issues: List issues".data,
        "- Result: Result: of a search".data, []] ∧
    stdoutOf (beforeCallTool (main wInvocationFails).trace) = "Verfügbare Tools:\n" :=
  have t := tool_section wTwoTools _
    [⟨"list_issues", "List issues"⟩, ⟨"Result", "Result: of a search"⟩] rfl rfl
  ⟨t.1, t.2.1.mpr (by
      intro t hmem
      simp only [List.mem_cons, List.mem_singleton, List.not_mem_nil, or_false] at hmem
      rcases hmem with hmem | hmem <;> subst hmem <;> decide),
   (tool_section wInvocationFails _ [] rfl rfl).2.2 rfl⟩

/-- Claim C8: for every environment, `main` calls `client.NewClient` exactly once,
with a configuration of one server entry keyed `linear`, command `npx`,
arguments `-y`, `@tacticlaunch/mcp-linear` in that order, and one environment
entry `LINEAR_API_TOKEN` whose value is the literal placeholder text, never the
value of the variable. -/
theorem server_configuration (w : World) :
    ∃ pre post, (main w).trace = pre ++
        Event.newClient "gomcp-linear-example"
          (ClientOption.WithServers
            ⟨[("linear", ⟨"npx", ["-y", "@tacticlaunch/mcp-linear"],
                [("LINEAR_API_TOKEN", "$\x7bLINEAR_API_TOKEN\x7d")]⟩)]⟩ "linear") :: post ∧
      ∀ e ∈ pre ++ post, e.isNewClient = false := by
  have hpre : ∀ e ∈ tokenCheck (w.Getenv "LINEAR_API_TOKEN"), e.isNewClient = false := by
    intro e he
    unfold tokenCheck at he
    split at he <;> simp_all [Event.isNewClient]
  have hdisc : ∀ r, ∀ e ∈ discovery r, e.isNewClient = false := by
    intro r e he
    cases r with
    | error x => simp [discovery] at he; subst he; rfl
    | ok tools =>
        simp [discovery] at he
        rcases he with he | ⟨t, _, he⟩ <;> subst he <;> rfl
  cases h : w.NewClient "gomcp-linear-example" (ClientOption.WithServers cfg "linear") with
  | error err =>
      rw [main_newClient_error w err h]
      refine ⟨_, _, rfl, ?_⟩
      intro e he
      simp at he
      rcases he with he | he
      · exact hpre e he
      · subst he; rfl
  | ok c =>
      cases hc : c.CallTool "list_issues" [("team", GoValue.str "Frontend")] with
      | error err =>
          rw [main_callTool_error w c err h hc]
          refine ⟨_, _, rfl, ?_⟩
          intro e he
          simp [callToolCall] at he
          rcases he with he | he | he | he | he
          · exact hpre e he
          · subst he; rfl
          · exact hdisc _ e he
          · subst he; rfl
          · subst he; rfl
      | ok res =>
          rw [main_callTool_ok w c res h hc]
          refine ⟨_, _, rfl, ?_⟩
          intro e he
          simp [callToolCall] at he
          rcases he with he | he | he | he | he | he
          · exact hpre e he
          · subst he; rfl
          · exact hdisc _ e he
          · subst he; rfl
          · subst he; rfl
          · subst he; rfl

/-- Claim C9: with the token set to `abc`, the constructor succeeding, `ListTools`
returning the one tool `list_issues` with description `List issues`, and
`CallTool` returning the map `count = 2`, `main` logs nothing (so no token
warning), writes the header line, then `- list_issues: List issues`, then
`Result: map[count:2]`, and exits with status 0. -/
theorem end_to_end :
    logsOf (main wEndToEnd).trace = [] ∧
    stdoutWrites (main wEndToEnd).trace =
      ["Verfügbare Tools:\n", "- list_issues: List issues\n", "Result: map[count:2]\n"] ∧
    stdoutOf (main wEndToEnd).trace =
      "Verfügbare Tools:\n- list_issues: List issues\nResult: map[count:2]\n" ∧
    (main wEndToEnd).exitCode = 0 := by
  decide

/-- Claim C10: two runs of `main` against the same client library, with any two
environments, make the same calls into the library with the same arguments,
write the same text to standard output and exit with the same status; their
events are the same once the token warning is left out; and when the two tokens
are both empty or both non-empty the runs are the same in full, so nothing of
the token value reaches an output or a call argument. -/
theorem token_noninterference (w1 w2 : World) (h : w1.NewClient = w2.NewClient) :
    (main w1).trace.filter Event.isCollaboratorCall =
        (main w2).trace.filter Event.isCollaboratorCall ∧
    stdoutOf (main w1).trace = stdoutOf (main w2).trace ∧
    (main w1).exitCode = (main w2).exitCode ∧
    (main w1).trace.filter (fun e => !e.isTokenWarning) =
        (main w2).trace.filter (fun e => !e.isTokenWarning) ∧
    ((w1.Getenv "LINEAR_API_TOKEN" = "" ↔ w2.Getenv "LINEAR_API_TOKEN" = "") →
      main w1 = main w2) := by
  obtain ⟨rest, code, h1, hall⟩ := main_eq_tokenCheck_append w1
  have h2 := hall w2 h.symm
  rw [h1, h2]
  refine ⟨?_, ?_, rfl, ?_, ?_⟩
  · simp [List.filter_append, filter_collaboratorCall_tokenCheck]
  · simp [stdoutOf, stdoutWrites_append, stdoutWrites_tokenCheck]
  · simp [List.filter_append, filter_not_tokenWarning_tokenCheck]
  · intro hiff
    rw [tokenCheck_congr _ _ hiff]

/-- Claim C10 at the end-to-end scenario run with the token `abc`, with the token
unset, and with the token `xyz`. -/
theorem token_noninterference_witness :
    ((main wEndToEnd).trace.filter Event.isCollaboratorCall =
        (main wEndToEndNoToken).trace.filter Event.isCollaboratorCall ∧
      stdoutOf (main wEndToEnd).trace = stdoutOf (main wEndToEndNoToken).trace ∧
      (main wEndToEnd).exitCode = (main wEndToEndNoToken).exitCode ∧
      (main wEndToEnd).trace.filter (fun e => !e.isTokenWarning) =
        (main wEndToEndNoToken).trace.filter (fun e => !e.isTokenWarning)) ∧
    main wEndToEnd = main wEndToEndOtherToken :=
  have t := token_noninterference wEndToEnd wEndToEndNoToken rfl
  ⟨⟨t.1, t.2.1, t.2.2.1, t.2.2.2.1⟩,
   (token_noninterference wEndToEnd wEndToEndOtherToken rfl).2.2.2.2 (by decide)⟩

end GomcpLinearExample
